import Mathlib

set_option maxRecDepth 4000

/-!
Verification of the binlogx event pipeline against its specification.

Shallow embedding of the Go sources:
  * `pkg/util` (sql_generator.go): value formatting, SQL materialization and
    rollback synthesis;
  * `pkg/source/file.go`: `parseRowsEvent`, `rowToMap`,
    `getIncludedColumnIndices`;
  * `pkg/filter/route.go`: `GetWorkerID`;
  * the range matcher (`NewRangeMatcher` / `parseToRegex` / `Match`);
  * `pkg/processor/processor.go`: the producer loop and `getEventKey`;
  * `pkg/cache/cache.go`: `GetTableMeta` with negative caching.

Go maps from column name to value are modelled as association lists (the
claims under study do not depend on Go's randomized map iteration order);
Go `int` is modelled as a `wordSize`-bit wrapping integer; wall-clock
instants are second-resolution naturals.
-/

namespace Binlogx

/-- Dynamic column value, modelling the subset of Go dynamic types
(`interface\x7b\x7d` values) that the claims exercise: `nil`, signed integers
(all Go integer widths print identically under `%d`), strings and booleans. -/
inductive Value where
  | null
  | vint (i : Int)
  | vstr (s : String)
  | vbool (b : Bool)
deriving DecidableEq, Repr

/-- Mirror of `models.Event` (pkg/models): the decoded Row-Change /
Query event. `BeforeValues` / `AfterValues` are ordered associative maps
from column name to value; Go zero values are the record defaults. -/
structure Event where
  Timestamp : Nat := 0
  EventType : String := ""
  ServerID : Nat := 0
  LogPos : Nat := 0
  Database : String := ""
  Table : String := ""
  Action : String := ""
  SQL : String := ""
  BeforeValues : List (String × Value) := []
  AfterValues : List (String × Value) := []
deriving DecidableEq, Repr

/-- `strings.ReplaceAll(s, "\\", "\\\\")` on the character list: double
every backslash. -/
def doubleBackslash : List Char → List Char
  | [] => []
  | c :: rest =>
    if c = '\\' then '\\' :: '\\' :: doubleBackslash rest
    else c :: doubleBackslash rest

/-- `strings.ReplaceAll(s, "\x27", "\\\x27")` on the character list:
prefix every single quote with a backslash. -/
def backslashQuote : List Char → List Char
  | [] => []
  | c :: rest =>
    if c = '\x27' then '\\' :: '\x27' :: backslashQuote rest
    else c :: backslashQuote rest

/-- Mirror of `escapeSingleQuote` (sql_generator.go): double backslashes
first, then escape single quotes with a preceding backslash (both
`strings.ReplaceAll` calls have single-character patterns, so the
character-wise recursion is exact). -/
def escapeSingleQuote (s : String) : String :=
  String.mk (backslashQuote (doubleBackslash s.data))

/-- `strings.ReplaceAll(s, "`", "``")` on the character list: double
every backtick. -/
def doubleBacktick : List Char → List Char
  | [] => []
  | c :: rest =>
    if c = '`' then '`' :: '`' :: doubleBacktick rest
    else c :: doubleBacktick rest

/-- Mirror of `escapeBacktick` (sql_generator.go): double every backtick. -/
def escapeBacktick (s : String) : String :=
  String.mk (doubleBacktick s.data)

/-- Mirror of `formatValue` (sql_generator.go) on the modelled value
subset: `nil` renders as `NULL`, integers in decimal, strings
single-quoted after escaping, booleans as `1` / `0`. -/
def formatValue : Value → String
  | .null => "NULL"
  | .vint i => toString i
  | .vstr s => "\x27" ++ escapeSingleQuote s ++ "\x27"
  | .vbool b => if b then "1" else "0"

/-- Mirror of Go `fmt.Sprintf` with verb `%v` on the modelled values
(used by `getEventKey` in processor.go). -/
def sprintValue : Value → String
  | .null => "<nil>"
  | .vint i => toString i
  | .vstr s => s
  | .vbool b => if b then "true" else "false"

/-- Mirror of `SQLGenerator.GenerateInsertSQL` (sql_generator.go).
The Go method builds the column and value slices in one loop over
`event.AfterValues`; the two maps below produce the same zipped lists.
The monitor hook only logs and does not affect the returned string. -/
def GenerateInsertSQL (event : Event) : String :=
  if event.Action ≠ "INSERT" then ""
  else
    let columns := event.AfterValues.map (fun kv => "`" ++ escapeBacktick kv.1 ++ "`")
    let values := event.AfterValues.map (fun kv => formatValue kv.2)
    if columns.length = 0 then ""
    else
      "INSERT INTO `" ++ escapeBacktick event.Database ++ "`.`" ++
        escapeBacktick event.Table ++ "` (" ++ String.intercalate ", " columns ++
        ") VALUES (" ++ String.intercalate ", " values ++ ")"

/-- Mirror of `SQLGenerator.GenerateUpdateSQL` (sql_generator.go):
SET clauses from `AfterValues`, WHERE clauses from `BeforeValues`;
only an empty SET list suppresses the statement. -/
def GenerateUpdateSQL (event : Event) : String :=
  if event.Action ≠ "UPDATE" then ""
  else
    let setParts := event.AfterValues.map
      (fun kv => "`" ++ escapeBacktick kv.1 ++ "`=" ++ formatValue kv.2)
    if setParts.length = 0 then ""
    else
      let whereParts := event.BeforeValues.map
        (fun kv => "`" ++ escapeBacktick kv.1 ++ "`=" ++ formatValue kv.2)
      "UPDATE `" ++ escapeBacktick event.Database ++ "`.`" ++
        escapeBacktick event.Table ++ "` SET " ++
        String.intercalate ", " setParts ++ " WHERE " ++
        String.intercalate " AND " whereParts

/-- Mirror of `SQLGenerator.GenerateDeleteSQL` (sql_generator.go):
WHERE predicate from `BeforeValues`; an empty predicate suppresses. -/
def GenerateDeleteSQL (event : Event) : String :=
  if event.Action ≠ "DELETE" then ""
  else
    let whereParts := event.BeforeValues.map
      (fun kv => "`" ++ escapeBacktick kv.1 ++ "`=" ++ formatValue kv.2)
    if whereParts.length = 0 then ""
    else
      "DELETE FROM `" ++ escapeBacktick event.Database ++ "`.`" ++
        escapeBacktick event.Table ++ "` WHERE " ++
        String.intercalate " AND " whereParts

/-- The inverted event that `GenerateRollbackSQL` (sql_generator.go)
constructs before materializing it: Insert inverts to Delete with
`before := after`, Update swaps the two images, Delete inverts to
Insert with `after := before`; other actions have no rollback. -/
def rollbackEvent (event : Event) : Option Event :=
  if event.Action = "INSERT" then
    some { Database := event.Database, Table := event.Table,
           Action := "DELETE", BeforeValues := event.AfterValues }
  else if event.Action = "UPDATE" then
    some { Database := event.Database, Table := event.Table,
           Action := "UPDATE", BeforeValues := event.AfterValues,
           AfterValues := event.BeforeValues }
  else if event.Action = "DELETE" then
    some { Database := event.Database, Table := event.Table,
           Action := "INSERT", AfterValues := event.BeforeValues }
  else none

/-- Mirror of `SQLGenerator.GenerateRollbackSQL` (sql_generator.go):
switch on the action tag, build the inverted event literal and feed it
to the matching forward generator. -/
def GenerateRollbackSQL (event : Event) : String :=
  if event.Action = "INSERT" then
    GenerateDeleteSQL { Database := event.Database, Table := event.Table,
                        Action := "DELETE", BeforeValues := event.AfterValues }
  else if event.Action = "UPDATE" then
    GenerateUpdateSQL { Database := event.Database, Table := event.Table,
                        Action := "UPDATE", BeforeValues := event.AfterValues,
                        AfterValues := event.BeforeValues }
  else if event.Action = "DELETE" then
    GenerateInsertSQL { Database := event.Database, Table := event.Table,
                        Action := "INSERT", AfterValues := event.BeforeValues }
  else ""

/-- Forward materialization dispatch by action tag, as the consuming
commands do (cmd/sql.go switches on `event.Action` and calls the
matching generator). -/
def forwardSQL (event : Event) : String :=
  if event.Action = "INSERT" then GenerateInsertSQL event
  else if event.Action = "UPDATE" then GenerateUpdateSQL event
  else if event.Action = "DELETE" then GenerateDeleteSQL event
  else ""

/-! ## Event decoder (pkg/source/file.go) -/

/-- Table-Map registry entry consulted by a Rows event
(`replication.TableMapEvent` fields used by file.go). -/
structure TableMapInfo where
  Schema : String
  Table : String
  ColumnCount : Nat
deriving DecidableEq, Repr

/-- The parts of `replication.RowsEvent` that `parseRowsEvent` reads:
the resolved table map (absent when no Table-Map preceded), the
included-columns bitmap (a byte array) and the row images. -/
structure RowsEventData where
  Table : Option TableMapInfo
  ColumnBitmap1 : List Nat
  Rows : List (List Value)
deriving DecidableEq, Repr

/-- Raw replication event subtypes that `parseRowsEvent` switches on. -/
inductive RawEventType where
  | writeRowsV1
  | writeRowsV2
  | updateRowsV1
  | updateRowsV2
  | deleteRowsV1
  | deleteRowsV2
  | otherType (s : String)
deriving DecidableEq, Repr

/-- Mirror of `getIncludedColumnIndices` (file.go): column `colIdx` is
included when bit `colIdx % 8` of byte `colIdx / 8` of the bitmap is
set; indices are collected in ascending order. -/
def getIncludedColumnIndices (totalColumns : Nat) (columnBitmap : List Nat) : List Nat :=
  (List.range totalColumns).filter (fun colIdx =>
    match columnBitmap.get? (colIdx / 8) with
    | some b => Nat.testBit b (colIdx % 8)
    | none => false)

/-- Mirror of `rowToMap` (file.go): the `i`-th value of the row vector is
bound to placeholder column name `col_` of the `i`-th included column
index (a `nil` table map yields the empty map, as in Go). -/
def rowToMap (row : List Value) (re : RowsEventData) : List (String × Value) :=
  match re.Table with
  | none => []
  | some tm =>
    let includedCols := getIncludedColumnIndices tm.ColumnCount re.ColumnBitmap1
    (row.zip includedCols).map (fun p => ("col_" ++ toString p.2, p.1))

/-- Mirror of `parseRowsEvent` (file.go), including the unreachable
`DELETE || UPDATE` else-if arm. Returns the updated event together with
the optional error (`missing table map event` when the table map is
absent), exactly as the Go function returns `(event, err)`. -/
def parseRowsEvent (event : Event) (e : RowsEventData) (headerEventType : RawEventType) :
    Event × Option String :=
  match e.Table with
  | none => (event, some "missing table map event")
  | some tm =>
    let event := { event with Database := tm.Schema, Table := tm.Table }
    let event := { event with Action :=
      match headerEventType with
      | .writeRowsV1 | .writeRowsV2 => "INSERT"
      | .updateRowsV1 | .updateRowsV2 => "UPDATE"
      | .deleteRowsV1 | .deleteRowsV2 => "DELETE"
      | .otherType _ => event.Action }
    let event :=
      if e.Rows.length > 0 then
        let event := { event with AfterValues := rowToMap (e.Rows.headD []) e }
        if e.Rows.length > 1 ∧ event.Action = "UPDATE" then
          { event with BeforeValues := rowToMap (e.Rows.getD 1 []) e }
        else if e.Rows.length > 1 ∧ (event.Action = "DELETE" ∨ event.Action = "UPDATE") then
          let event := { event with BeforeValues := rowToMap (e.Rows.headD []) e }
          if e.Rows.length > 1 then
            { event with AfterValues := rowToMap (e.Rows.getD 1 []) e }
          else event
        else event
      else event
    (event, none)

/-! ## Route filter (pkg/filter/route.go) -/

/-- Go `int` of word size `w` modelled on `Int`: reduce into
`[-2 ^ (w - 1), 2 ^ (w - 1))` with wrap-around on overflow. -/
def wrapInt (w : Nat) (x : Int) : Int :=
  (x + 2 ^ (w - 1)) % 2 ^ w - 2 ^ (w - 1)

/-- One step of the fold in `GetWorkerID` (route.go):
`hash = ((hash << 5) - hash) + int(ch)`, i.e. `32 * hash - hash + ch`,
with Go's silent wrap-around of `int` arithmetic. -/
def goHashStep (w : Nat) (h : Int) (ch : Nat) : Int :=
  wrapInt w (32 * h - h + (ch : Int))

/-- The hash loop of `GetWorkerID` (route.go): fold `goHashStep` over the
runes of the key (Go `for range` over a string yields runes). -/
def goStringHash (w : Nat) (key : String) : Int :=
  key.data.foldl (fun h c => goHashStep w h c.toNat) 0

/-- Mirror of `RouteFilter.GetWorkerID` (route.go), parametrized by the
platform word size `w` of Go `int` (32 or 64 bits): hash
`table + ":" + primaryKey`, negate when negative (itself a wrapping
operation), then take Go's truncated remainder by `workerCount`. -/
def GetWorkerID (w : Nat) (table primaryKey : String) (workerCount : Int) : Int :=
  let key := table ++ ":" ++ primaryKey
  let hash := goStringHash w key
  let hash := if hash < 0 then wrapInt w (-hash) else hash
  Int.tmod hash workerCount

/-! ## Pipeline producer (pkg/processor/processor.go) -/

/-- Outcome of one `DataSource.Read()` call as the producer sees it:
an event, a `nil` event (timeout, no data yet) or an error string. -/
inductive ReadResult where
  | ok (e : Event)
  | noEvent
  | err (msg : String)
deriving DecidableEq, Repr

/-- Mirror of the `producer` loop body (processor.go), as the sequence of
events the producer forwards to the worker queues given the source's
successive `Read()` results. An error whose text is `EOF` breaks the
loop quietly; any other error is logged and also breaks; a `nil` event
causes a sleep-and-retry; a filtered-out event is dropped; otherwise
the event is pushed (queue routing and blocking are not relevant to
the dispatched sequence). -/
def producerDispatch (accept : Event → Bool) : List ReadResult → List Event
  | [] => []
  | .err msg :: _ => if msg = "EOF" then [] else []
  | .noEvent :: rest => producerDispatch accept rest
  | .ok e :: rest =>
    if accept e then e :: producerDispatch accept rest
    else producerDispatch accept rest

/-- Mirror of `getEventKey` (processor.go): start from the table name and
append `":%v"` of the first ranged `AfterValues` entry, then break; an
empty after map leaves the bare table name. -/
def getEventKey (event : Event) : String :=
  match event.AfterValues with
  | [] => event.Table
  | (_, v) :: _ => event.Table ++ ":" ++ sprintValue v

/-- Partition key as the claim words it (spec section 3 / 4.5), written
here only for comparison with `getEventKey`: always
`table || ":" || key_of`, where `key_of` falls back from the first
after-image value to the first before-image value to the empty string. -/
def claimPartitionKey (event : Event) : String :=
  event.Table ++ ":" ++
    (match event.AfterValues with
     | (_, v) :: _ => sprintValue v
     | [] =>
       match event.BeforeValues with
       | (_, v) :: _ => sprintValue v
       | [] => "")

/-! ## Range-pattern matcher (util range matcher, `parseToRegex`) -/

/-- Token of the regular expression that `parseToRegex` emits:
a quoted literal character, `[A-Za-z0-9_]+` for `*`, or the
alternation of the decimal forms of an integer interval for `[a-b]`. -/
inductive RTok where
  | lit (c : Char)
  | wordPlus
  | numRange (lo hi : Nat)
deriving DecidableEq, Repr

/-- Mirror of `parseRange`: split on `-`, require exactly two integer
parts (after trimming), and swap when `start > end`. -/
def parseRange (s : String) : Option (Nat × Nat) :=
  match s.splitOn "-" with
  | [a, b] =>
    match a.trim.toNat?, b.trim.toNat? with
    | some lo, some hi => some (if lo > hi then (hi, lo) else (lo, hi))
    | _, _ => none
  | _ => none

/-- Mirror of `parseToRegex`, structurally recursive on a fuel bound so
that it reduces inside the kernel (every loop step consumes at least
one pattern character, so `length + 1` fuel always suffices): walk the
pattern, turning `*` into the word-character-plus token, `[...]` into
an enumerated numeric range (failing on a missing `]` or a malformed
range) and any other character into a quoted literal. No anchors are
added, exactly as in the source. -/
def parseToksF : Nat → List Char → Option (List RTok)
  | 0, _ => none
  | _ + 1, [] => some []
  | fuel + 1, '*' :: rest => (parseToksF fuel rest).map (fun ts => .wordPlus :: ts)
  | fuel + 1, '[' :: rest =>
    let inside := rest.takeWhile (fun c => c ≠ ']')
    if inside.length = rest.length then none
    else
      match parseRange (String.mk inside) with
      | none => none
      | some (lo, hi) =>
        (parseToksF fuel (rest.drop (inside.length + 1))).map
          (fun ts => .numRange lo hi :: ts)
  | fuel + 1, c :: rest => (parseToksF fuel rest).map (fun ts => .lit c :: ts)

/-- `parseToRegex` on a whole pattern: run the tokenizer with adequate
fuel. -/
def parseToks (pattern : List Char) : Option (List RTok) :=
  parseToksF (pattern.length + 1) pattern

/-- Character class of the compiled `*`: ASCII letter, digit or
underscore (`[A-Za-z0-9_]`). -/
def isWordChar (c : Char) : Bool :=
  (('A' ≤ c) && (c ≤ 'Z')) || (('a' ≤ c) && (c ≤ 'z')) ||
    (('0' ≤ c) && (c ≤ '9')) || (c == '_')

/-- Anchored matching of the emitted regex against a whole string:
`fullMatch ts s = true` exactly when `s` is an expansion in the
pattern's language (a literal matches itself, `*` one or more word
characters, `[a-b]` the decimal form of one integer of the interval). -/
def fullMatch : List RTok → List Char → Bool
  | [], s => s.isEmpty
  | .lit _ :: _, [] => false
  | .lit c :: ts, d :: s => c == d && fullMatch ts s
  | .wordPlus :: ts, s =>
    (List.range s.length).any (fun i =>
      ((s.take (i + 1)).all isWordChar) && fullMatch ts (s.drop (i + 1)))
  | .numRange lo hi :: ts, s =>
    (List.range (hi + 1 - lo)).any (fun j =>
      let ds := (toString (lo + j)).data
      ds.isPrefixOf s && fullMatch ts (s.drop ds.length))

/-- Semantics of Go `regexp.MatchString` on an anchor-free regex: true
exactly when some contiguous substring matches the whole regex. -/
def matchSomewhere (ts : List RTok) (s : List Char) : Bool :=
  (List.range (s.length + 1)).any (fun i =>
    let suff := s.drop i
    (List.range (suff.length + 1)).any (fun k => fullMatch ts (suff.take k)))

/-- Composition of `NewRangeMatcher` and `RangeMatcher.Match`:
compile the pattern and run the unanchored search on the input;
`none` when compilation fails. -/
def rangeMatch (pattern input : String) : Option Bool :=
  (parseToks pattern.data).map (fun ts => matchSomewhere ts input.data)

/-! ## Metadata cache (pkg/cache/cache.go) -/

/-- Mirror of `models.ColumnMeta` as filled by `queryTableMeta` (the Go
field `Type` is `ColumnType` here, `Type` being reserved in Lean). -/
structure ColumnMeta where
  Name : String := ""
  ColumnType : String := ""
  Nullable : Bool := false
deriving DecidableEq, Repr

/-- Mirror of `models.TableMeta`. -/
structure TableMeta where
  Columns : List ColumnMeta := []
deriving DecidableEq, Repr

/-- Mirror of `TableNotFoundCache` (cache.go): the write instant and the
time-to-live of one negative entry, in seconds. -/
structure TableNotFoundCache where
  timestamp : Nat
  ttl : Nat
deriving DecidableEq, Repr

/-- Mirror of `TableNotFoundCache.IsExpired`: `time.Since(timestamp) > ttl`,
at the second resolution of the model (time is monotone, so `now` is at
least the stored instant). -/
def IsExpired (now : Nat) (tnc : TableNotFoundCache) : Bool :=
  now - tnc.timestamp > tnc.ttl

/-- Reply of the external catalog
(`INFORMATION_SCHEMA.COLUMNS` query issued by `queryTableMeta`):
an ordered column list (possibly empty), a not-found failure, or any
other (transient) failure. The Go code only sees `rows` or an opaque
`error`; the failure split exists so the claim's "fails with a
not-found signal" can be stated. -/
inductive CatalogReply where
  | rows (cols : List ColumnMeta)
  | notFoundFailure
  | otherFailure (msg : String)
deriving DecidableEq, Repr

/-- Mirror of `queryTableMeta` (cache.go): propagate a query failure,
turn an empty column list into the `table not found` error, otherwise
return the metadata. -/
def queryTableMeta (cat : String → String → CatalogReply) (schema table : String) :
    Except String TableMeta :=
  match cat schema table with
  | .notFoundFailure => .error ("table " ++ schema ++ "." ++ table ++ " does not exist")
  | .otherFailure msg => .error msg
  | .rows cols =>
    if cols.length = 0 then .error ("table " ++ schema ++ "." ++ table ++ " not found")
    else .ok { Columns := cols }

/-- Go map assignment `m[k] = v` on the association-list model:
overwrite the binding of `k` when present (keys are unique, as in a Go
map), else append the new binding. -/
def alistInsert {α : Type} : List (String × α) → String → α → List (String × α)
  | [], k, v => [(k, v)]
  | kv :: tl, k, v => if kv.1 = k then (k, v) :: tl else kv :: alistInsert tl k v

/-- Mirror of the `MetaCache` shared state (cache.go). Go map iteration
order is randomized; the association lists keep insertion order, which
the claims do not depend on. `hasDb` records whether `mc.db` is nil. -/
structure MetaCache where
  cache : List (String × TableMeta) := []
  notFoundCache : List (String × TableNotFoundCache) := []
  maxSize : Nat := 10000
  notFoundCacheTTL : Nat := 60
  hasDb : Bool := true
deriving DecidableEq, Repr

/-- Mirror of `NewMetaCache`: a non-positive `maxSize` falls back to
10000 and the negative TTL is fixed at one minute. -/
def NewMetaCache (maxSize : Int) (hasDb : Bool) : MetaCache :=
  { cache := [], notFoundCache := [],
    maxSize := if maxSize ≤ 0 then 10000 else maxSize.toNat,
    notFoundCacheTTL := 60, hasDb := hasDb }

/-- The bulk eviction of `GetTableMeta` (cache.go): delete entries in map
iteration order until fewer than `maxSize / 2` remain; modelled as
dropping the oldest entries down to `maxSize / 2 - 1`. -/
def evictHalf (l : List (String × TableMeta)) (maxSize : Nat) :
    List (String × TableMeta) :=
  l.drop (l.length + 1 - maxSize / 2)

/-- Result of `MetaCache.GetTableMeta` (cache.go): the metadata, the
`no database connection available` error, the
`not found (cached)` error from an unexpired negative entry, or the
error propagated out of the catalog query. -/
inductive GetResult where
  | found (m : TableMeta)
  | errNoDb
  | errNotFoundCached
  | errQuery (msg : String)
deriving DecidableEq, Repr

/-- Mirror of `MetaCache.GetTableMeta` (cache.go), sequentialized: check
the database handle, then the negative cache (an unexpired entry
returns without querying), then the positive cache, then perform the
catalog query (under single-flight, whose in-flight double-check of the
positive cache reads the same state here and is therefore coalesced).
Any query failure writes a negative entry stamped `now` with the cache
TTL; success writes the positive entry, bulk-evicting at capacity.
The third component records whether a catalog query was issued. -/
def GetTableMeta (cat : String → String → CatalogReply) (now : Nat)
    (mc : MetaCache) (schema table : String) :
    GetResult × MetaCache × Bool :=
  if mc.hasDb = false then (.errNoDb, mc, false)
  else
    let key := schema ++ "." ++ table
    let negHit :=
      match List.lookup key mc.notFoundCache with
      | some nfc => !(IsExpired now nfc)
      | none => false
    if negHit then (.errNotFoundCached, mc, false)
    else
      match List.lookup key mc.cache with
      | some meta => (.found meta, mc, false)
      | none =>
        match queryTableMeta cat schema table with
        | .error msg =>
          let nfc : TableNotFoundCache := { timestamp := now, ttl := mc.notFoundCacheTTL }
          (.errQuery msg,
           { mc with notFoundCache := alistInsert mc.notFoundCache key nfc },
           true)
        | .ok meta =>
          let newCache :=
            if mc.cache.length < mc.maxSize then alistInsert mc.cache key meta
            else alistInsert (evictHalf mc.cache mc.maxSize) key meta
          (.found meta, { mc with cache := newCache }, true)

/-! ## Concrete sample inputs used by the theorems below -/

/-- One-column table map entry, as registered by a Table-Map event. -/
def tmOneCol : TableMapInfo := { Schema := "db", Table := "t", ColumnCount := 1 }

/-- Update-Rows raw event with four row images (`2k` images, `k = 2`)
over the one-column table, all columns included. -/
def rowsUpdate4 : RowsEventData :=
  { Table := some tmOneCol, ColumnBitmap1 := [1],
    Rows := [[.vint 10], [.vint 11], [.vint 12], [.vint 13]] }

/-- Delete-Rows raw event carrying a single row image (the standard
single-row DELETE shape). -/
def rowsDelete1 : RowsEventData :=
  { Table := some tmOneCol, ColumnBitmap1 := [1], Rows := [[.vint 7]] }

/-- Primary-key string whose 64-bit folded hash in `GetWorkerID` is
exactly `-2 ^ 63`: the prefixed `":"` contributes `58 * 31 ^ 13` and the
thirteen code points are the base-31 digits of the remainder of
`2 ^ 63` modulo `2 ^ 64`, most significant first. -/
def pkMinHash : String :=
  String.mk ([17, 0, 17, 29, 14, 27, 25, 29, 19, 20, 16, 9, 0].map Char.ofNat)

/-- Insert event used to exercise the producer loop. -/
def evProv : Event :=
  { Table := "t1", Action := "INSERT", AfterValues := [("col_0", Value.vint 1)] }

/-- Insert event of spec scenario S1. -/
def evJohn : Event :=
  { Database := "testdb", Table := "users", Action := "INSERT",
    AfterValues := [("id", Value.vint 1), ("name", Value.vstr "John")] }

/-- Query event (no row images). -/
def evQuery : Event := { Action := "QUERY", SQL := "BEGIN" }

/-- Row-Change with an empty after map and a one-entry before map. -/
def evNoAfter : Event :=
  { Table := "users", Action := "DELETE", BeforeValues := [("col_0", Value.vint 7)] }

/-- Update Row-Change with a non-empty after map and an empty before map. -/
def evUpdNoBefore : Event :=
  { Database := "testdb", Table := "users", Action := "UPDATE",
    AfterValues := [("name", Value.vstr "Jane")] }

/-- Catalog stub whose every query fails with a transient error that is
neither zero rows nor a not-found signal. -/
def catTransient : String → String → CatalogReply :=
  fun _ _ => .otherFailure "connection refused"

/-- Catalog stub that resolves every table to a single `id` column. -/
def catOneCol : String → String → CatalogReply :=
  fun _ _ => .rows [{ Name := "id", ColumnType := "int", Nullable := false }]

/-- Cache state holding one negative entry for `db.t` written at
instant `0` with the 60-second TTL. -/
def mcNeg : MetaCache :=
  { cache := [], notFoundCache := [("db.t", { timestamp := 0, ttl := 60 })],
    maxSize := 10000, notFoundCacheTTL := 60, hasDb := true }

/-! ## Helper lemmas -/

/-- Looking up the just-assigned key in the Go-map model returns the
assigned value. -/
theorem lookup_alistInsert_self {α : Type} (l : List (String × α)) (k : String) (v : α) :
    List.lookup k (alistInsert l k v) = some v := by
  induction l with
  | nil => simp [alistInsert, List.lookup]
  | cons hd tl ih =>
    by_cases h : hd.1 = k
    · simp [alistInsert, h, List.lookup]
    · simp [alistInsert, h, List.lookup, beq_eq_false_iff_ne.mpr (Ne.symm h), ih]

/-! ## Claim theorems -/

/-- C1: evaluation of `parseRowsEvent` at an Update-Rows raw event with
four row images (`2k` images for `k = 2`) over a one-column table. The
decoder produces a single Update Row-Change whose after map holds image
`0` and whose before map holds image `1` — not two Row-Changes with
`before` = image `2i` and `after` = image `2i + 1` as the claim states:
the pair is swapped and images `2` and `3` are dropped. -/
theorem update_rows_pairing_bug :
    (parseRowsEvent {} rowsUpdate4 .updateRowsV2).1.Action = "UPDATE"
  ∧ (parseRowsEvent {} rowsUpdate4 .updateRowsV2).1.AfterValues = [("col_0", Value.vint 10)]
  ∧ (parseRowsEvent {} rowsUpdate4 .updateRowsV2).1.BeforeValues = [("col_0", Value.vint 11)]
  ∧ (parseRowsEvent {} rowsUpdate4 .updateRowsV2).2 = none := by
  decide

/-- C2: evaluation of `parseRowsEvent` at a Delete-Rows raw event with a
single row image. The produced Delete Row-Change has an empty before
map and a non-empty after map, the exact opposite of the claimed
invariant (Delete ⇒ after empty, before non-empty). -/
theorem delete_rows_invariant_bug :
    (parseRowsEvent {} rowsDelete1 .deleteRowsV1).1.Action = "DELETE"
  ∧ (parseRowsEvent {} rowsDelete1 .deleteRowsV1).1.BeforeValues = []
  ∧ (parseRowsEvent {} rowsDelete1 .deleteRowsV1).1.AfterValues = [("col_0", Value.vint 7)] := by
  decide

/-- C4: the compiled matcher is not anchored. Pattern `foo` compiles to
the three literal tokens; its language contains exactly the string
`foo` (so `xfooy` is not an expansion of the pattern), yet
`rangeMatch "foo" "xfooy"` is true because the compiled regex carries
no anchors and Go `MatchString` searches for any matching substring. -/
theorem range_matcher_unanchored :
    parseToks "foo".data = some [RTok.lit 'f', RTok.lit 'o', RTok.lit 'o']
  ∧ rangeMatch "foo" "xfooy" = some true
  ∧ fullMatch [RTok.lit 'f', RTok.lit 'o', RTok.lit 'o'] "xfooy".data = false
  ∧ fullMatch [RTok.lit 'f', RTok.lit 'o', RTok.lit 'o'] "foo".data = true := by
  decide

/-- C5: evaluation of `GetWorkerID` at failing inputs. With
`table = ""`, the crafted key `pkMinHash` and `N = 10`, the 64-bit fold
reaches exactly `-2 ^ 63`; Go's `hash = -hash` wraps back to the same
negative value and the truncated remainder is `-8`, outside `[0, 10)`.
Moreover the same input `("orders", "42", 4)` is routed to worker `1`
when Go `int` is 32 bits wide but to worker `3` when it is 64 bits
wide, so identical inputs do not yield identical worker IDs across
platforms. -/
theorem getWorkerID_range_and_platform_bug :
    goStringHash 64 ("" ++ ":" ++ pkMinHash) = -(2 ^ 63)
  ∧ GetWorkerID 64 "" pkMinHash 10 = -8
  ∧ ¬ (0 ≤ GetWorkerID 64 "" pkMinHash 10 ∧ GetWorkerID 64 "" pkMinHash 10 < 10)
  ∧ GetWorkerID 32 "orders" "42" 4 = 1
  ∧ GetWorkerID 64 "orders" "42" 4 = 3 := by
  decide

/-- C6 (counterexample): the claim says a transient, non-end-of-stream
read error is logged and the producer continues pulling events. With
source results `[error "disk read failure", event]` the producer
dispatches nothing — the event after the transient error is never
pulled — whereas the same tail alone dispatches the event, so the
producer did not continue. -/
theorem producer_continue_counterexample :
    producerDispatch (fun _ => true) [.err "disk read failure", .ok evProv] = []
  ∧ producerDispatch (fun _ => true) [.ok evProv] = [evProv]
  ∧ "disk read failure" ≠ "EOF" := by
  decide

/-- C6 (amended): the producer terminates its loop on any read error —
end-of-stream or transient alike (the two differ only in logging) — so
no result after the first error is ever dispatched; a nil (timed-out)
read is retried, and a successful read is dispatched exactly when the
filter accepts it. -/
theorem producer_stops_on_any_error (accept : Event → Bool) (msg : String)
    (xs rest : List ReadResult) (e : Event) :
    producerDispatch accept (.err msg :: rest) = []
  ∧ producerDispatch accept (xs ++ .err msg :: rest) =
      producerDispatch accept (xs ++ [.err msg])
  ∧ producerDispatch accept (.noEvent :: rest) = producerDispatch accept rest
  ∧ producerDispatch accept (.ok e :: rest) =
      (if accept e then e :: producerDispatch accept rest
       else producerDispatch accept rest) := by
  refine ⟨by simp [producerDispatch], ?_, rfl, rfl⟩
  induction xs with
  | nil => simp [producerDispatch]
  | cons x tl ih => cases x <;> simp [producerDispatch, ih]

/-- C3: rollback inversion laws. For an Insert event the rollback is the
Delete whose predicate (before map) is the Insert's after map, and the
materialized rollback SQL is exactly that Delete's SQL; an Update
inverts to the Update with before and after swapped; a Delete inverts
to the Insert whose after map is the original before map. Round trip:
whenever the rollback of the rollback of `e` exists, it is semantically
equivalent to `e` — it materializes to the same forward SQL and the
same rollback SQL. -/
theorem rollback_inversion (e : Event) :
    (e.Action = "INSERT" →
      rollbackEvent e = some { Database := e.Database, Table := e.Table,
                               Action := "DELETE", BeforeValues := e.AfterValues }
      ∧ GenerateRollbackSQL e =
          GenerateDeleteSQL { Database := e.Database, Table := e.Table,
                              Action := "DELETE", BeforeValues := e.AfterValues })
  ∧ (e.Action = "UPDATE" →
      rollbackEvent e = some { Database := e.Database, Table := e.Table,
                               Action := "UPDATE", BeforeValues := e.AfterValues,
                               AfterValues := e.BeforeValues }
      ∧ GenerateRollbackSQL e =
          GenerateUpdateSQL { Database := e.Database, Table := e.Table,
                              Action := "UPDATE", BeforeValues := e.AfterValues,
                              AfterValues := e.BeforeValues })
  ∧ (e.Action = "DELETE" →
      rollbackEvent e = some { Database := e.Database, Table := e.Table,
                               Action := "INSERT", AfterValues := e.BeforeValues }
      ∧ GenerateRollbackSQL e =
          GenerateInsertSQL { Database := e.Database, Table := e.Table,
                              Action := "INSERT", AfterValues := e.BeforeValues })
  ∧ (∀ r s, rollbackEvent e = some r → rollbackEvent r = some s →
      forwardSQL s = forwardSQL e ∧ GenerateRollbackSQL s = GenerateRollbackSQL e) := by
  refine ⟨fun h => ?_, fun h => ?_, fun h => ?_, fun r s hr hs => ?_⟩
  · constructor <;> simp [rollbackEvent, GenerateRollbackSQL, h]
  · constructor <;> simp [rollbackEvent, GenerateRollbackSQL, h]
  · constructor <;> simp [rollbackEvent, GenerateRollbackSQL, h]
  · by_cases h1 : e.Action = "INSERT"
    · simp [rollbackEvent, h1] at hr
      subst hr
      simp [rollbackEvent] at hs
      subst hs
      constructor
      · simp [forwardSQL, GenerateInsertSQL, h1]
      · simp [GenerateRollbackSQL, h1]
    · by_cases h2 : e.Action = "UPDATE"
      · simp [rollbackEvent, h1, h2] at hr
        subst hr
        simp [rollbackEvent] at hs
        subst hs
        constructor
        · simp [forwardSQL, GenerateUpdateSQL, h1, h2]
        · simp [GenerateRollbackSQL, h1, h2]
      · by_cases h3 : e.Action = "DELETE"
        · simp [rollbackEvent, h1, h2, h3] at hr
          subst hr
          simp [rollbackEvent] at hs
          subst hs
          constructor
          · simp [forwardSQL, GenerateDeleteSQL, h1, h2, h3]
          · simp [GenerateRollbackSQL, h1, h2, h3]
        · simp [rollbackEvent, h1, h2, h3] at hr

/-- C3 witness: the inversion laws applied to the concrete Insert of
scenario S1: its materialized rollback is the Delete whose predicate
equals the inserted values. -/
theorem rollback_inversion_witness :
    evJohn.Action = "INSERT"
  ∧ GenerateRollbackSQL evJohn =
      "DELETE FROM `testdb`.`users` WHERE `id`=1 AND `name`=\x27John\x27" := by
  have h := (rollback_inversion evJohn).1 rfl
  exact ⟨rfl, h.2.trans (by decide)⟩

/-- C7 (counterexample): the catalog fails with
`connection refused` — neither zero rows nor a not-found signal — and
the cache nevertheless writes a negative entry with expiry
`now + 60 s`, so negative entries are not written exactly on zero-rows
or not-found outcomes. -/
theorem metaCache_negative_entry_on_transient_failure :
    catTransient "db" "t" ≠ .rows []
  ∧ catTransient "db" "t" ≠ .notFoundFailure
  ∧ GetTableMeta catTransient 0 (NewMetaCache 0 true) "db" "t" =
      (.errQuery "connection refused",
       { cache := [],
         notFoundCache := [("db.t", { timestamp := 0, ttl := 60 })],
         maxSize := 10000, notFoundCacheTTL := 60, hasDb := true },
       true) := by
  decide

/-- C7 (amended): with a database handle and the 60-second negative TTL,
(i) an unexpired negative entry (written at `ts`, `now - ts ≤ ttl`)
makes `GetTableMeta` return the cached not-found without touching the
state and without issuing a catalog query; (ii) an expired negative
entry (with no positive entry) leads to a fresh catalog query;
(iii) on a fresh key, a catalog query is issued, and a negative entry
stamped `now` with TTL 60 appears exactly when the query fails for any
reason — a success installs no negative entry and returns the
metadata. -/
theorem metaCache_negative_ttl (cat : String → String → CatalogReply)
    (now : Nat) (mc : MetaCache) (schema table : String)
    (hdb : mc.hasDb = true) (httl : mc.notFoundCacheTTL = 60) :
    (∀ ts t2, List.lookup (schema ++ "." ++ table) mc.notFoundCache =
        some { timestamp := ts, ttl := t2 } → now - ts ≤ t2 →
        GetTableMeta cat now mc schema table = (.errNotFoundCached, mc, false))
  ∧ (∀ ts t2, List.lookup (schema ++ "." ++ table) mc.notFoundCache =
        some { timestamp := ts, ttl := t2 } → now - ts > t2 →
        List.lookup (schema ++ "." ++ table) mc.cache = none →
        (GetTableMeta cat now mc schema table).2.2 = true)
  ∧ (List.lookup (schema ++ "." ++ table) mc.notFoundCache = none →
      List.lookup (schema ++ "." ++ table) mc.cache = none →
      (GetTableMeta cat now mc schema table).2.2 = true
      ∧ (∀ msg, queryTableMeta cat schema table = .error msg →
          (GetTableMeta cat now mc schema table).1 = .errQuery msg
          ∧ List.lookup (schema ++ "." ++ table)
              (GetTableMeta cat now mc schema table).2.1.notFoundCache =
              some { timestamp := now, ttl := 60 })
      ∧ (∀ m, queryTableMeta cat schema table = .ok m →
          (GetTableMeta cat now mc schema table).1 = .found m
          ∧ List.lookup (schema ++ "." ++ table)
              (GetTableMeta cat now mc schema table).2.1.notFoundCache = none)) := by
  refine ⟨fun ts t2 hl hle => ?_, fun ts t2 hl hgt hc => ?_, fun hn hc => ?_⟩
  · have hx : ¬ (now - ts > t2) := not_lt.mpr hle
    simp [GetTableMeta, hdb, hl, IsExpired, hx]
  · cases hq : queryTableMeta cat schema table with
    | error msg => simp [GetTableMeta, hdb, hl, IsExpired, hgt, hc, hq]
    | ok m => simp [GetTableMeta, hdb, hl, IsExpired, hgt, hc, hq]
  · refine ⟨?_, fun msg hq => ?_, fun m hq => ?_⟩
    · cases hq : queryTableMeta cat schema table with
      | error msg => simp [GetTableMeta, hdb, hn, hc, hq]
      | ok m => simp [GetTableMeta, hdb, hn, hc, hq]
    · constructor
      · simp [GetTableMeta, hdb, hn, hc, hq]
      · simp [GetTableMeta, hdb, hn, hc, hq, httl, lookup_alistInsert_self]
    · constructor
      · simp [GetTableMeta, hdb, hn, hc, hq]
      · simp [GetTableMeta, hdb, hn, hc, hq]

/-- C7 witness: the amended theorem applied at concrete states — with a
negative entry written at instant 0, a read at instant 30 returns the
cached not-found without querying, and a read at instant 61 issues a
fresh catalog query. -/
theorem metaCache_negative_ttl_witness :
    GetTableMeta catOneCol 30 mcNeg "db" "t" = (.errNotFoundCached, mcNeg, false)
  ∧ (GetTableMeta catOneCol 61 mcNeg "db" "t").2.2 = true := by
  have h30 := metaCache_negative_ttl catOneCol 30 mcNeg "db" "t" rfl rfl
  have h61 := metaCache_negative_ttl catOneCol 61 mcNeg "db" "t" rfl rfl
  exact ⟨h30.1 0 60 (by decide) (by decide),
         h61.2.1 0 60 (by decide) (by decide) (by decide)⟩

/-- C8 (counterexample): for a Row-Change with an empty after map and
before map `[col_0 ↦ 7]` on table `users`, the code's partition key is
the bare table name `users` — no colon and no fallback to the before
image — while the claimed key is `users:7`. -/
theorem getEventKey_claim_counterexample :
    getEventKey evNoAfter = "users"
  ∧ claimPartitionKey evNoAfter = "users:7"
  ∧ getEventKey evNoAfter ≠ claimPartitionKey evNoAfter := by
  decide

/-- C8 (amended): the partition key is
`table || ":" || stringified first after value` when the after map is
non-empty — in that case it agrees with the claimed `key_of` — and the
bare table name (no colon) when the after map is empty; the before map
never influences the key. -/
theorem getEventKey_characterization (e : Event) (b : List (String × Value)) :
    getEventKey e = (match e.AfterValues with
      | [] => e.Table
      | (_, v) :: _ => e.Table ++ ":" ++ sprintValue v)
  ∧ getEventKey { e with BeforeValues := b } = getEventKey e
  ∧ (e.AfterValues ≠ [] → getEventKey e = claimPartitionKey e) := by
  refine ⟨rfl, rfl, fun h => ?_⟩
  match hA : e.AfterValues with
  | [] => exact absurd hA h
  | (k, v) :: tl => simp [getEventKey, claimPartitionKey, hA]

/-- C8 witness: the amended characterization applied to the concrete
Insert of scenario S1, whose after map is non-empty. -/
theorem getEventKey_characterization_witness :
    evJohn.AfterValues ≠ []
  ∧ getEventKey evJohn = claimPartitionKey evJohn
  ∧ getEventKey evJohn = "users:1" := by
  have h := (getEventKey_characterization evJohn []).2.2 (by decide)
  exact ⟨by decide, h, by decide⟩

/-- C9: each SQL generator materializes only events carrying its own
action tag — any other tag yields the empty string. -/
theorem generators_check_action_tag (e : Event) :
    (e.Action ≠ "INSERT" → GenerateInsertSQL e = "")
  ∧ (e.Action ≠ "UPDATE" → GenerateUpdateSQL e = "")
  ∧ (e.Action ≠ "DELETE" → GenerateDeleteSQL e = "") := by
  refine ⟨fun h => ?_, fun h => ?_, fun h => ?_⟩
  · simp [GenerateInsertSQL, h]
  · simp [GenerateUpdateSQL, h]
  · simp [GenerateDeleteSQL, h]

/-- C9 witness: the generators applied to a concrete Query event all
return the empty string. -/
theorem generators_check_action_tag_witness :
    GenerateInsertSQL evQuery = ""
  ∧ GenerateUpdateSQL evQuery = ""
  ∧ GenerateDeleteSQL evQuery = "" :=
  ⟨(generators_check_action_tag evQuery).1 (by decide),
   (generators_check_action_tag evQuery).2.1 (by decide),
   (generators_check_action_tag evQuery).2.2 (by decide)⟩

/-- C10: an Update event with a non-empty after map and an empty before
map is not suppressed — the generator emits
`UPDATE ... SET ... WHERE ` with an empty WHERE predicate (only an
empty SET clause suppresses output). -/
theorem update_empty_before_not_suppressed (e : Event)
    (ha : e.Action = "UPDATE") (hafter : e.AfterValues ≠ [])
    (hb : e.BeforeValues = []) :
    GenerateUpdateSQL e =
      "UPDATE `" ++ escapeBacktick e.Database ++ "`.`" ++
        escapeBacktick e.Table ++ "` SET " ++
        String.intercalate ", " (e.AfterValues.map
          (fun kv => "`" ++ escapeBacktick kv.1 ++ "`=" ++ formatValue kv.2)) ++
        " WHERE "
  ∧ GenerateUpdateSQL e ≠ "" := by
  have h1 : GenerateUpdateSQL e =
      "UPDATE `" ++ escapeBacktick e.Database ++ "`.`" ++
        escapeBacktick e.Table ++ "` SET " ++
        String.intercalate ", " (e.AfterValues.map
          (fun kv => "`" ++ escapeBacktick kv.1 ++ "`=" ++ formatValue kv.2)) ++
        " WHERE " := by
    simp [GenerateUpdateSQL, ha, hb, hafter,
      show String.intercalate " AND " [] = "" from rfl]
  refine ⟨h1, fun hc => ?_⟩
  rw [h1] at hc
  have h2 := congrArg String.length hc
  simp [String.length_append] at h2
  exact absurd h2.2 (by decide)

/-- C10 witness: the theorem applied at the concrete Update with SET
from `name ↦ Jane` and no before image. -/
theorem update_empty_before_not_suppressed_witness :
    GenerateUpdateSQL evUpdNoBefore =
      "UPDATE `testdb`.`users` SET `name`=\x27Jane\x27 WHERE "
  ∧ GenerateUpdateSQL evUpdNoBefore ≠ "" := by
  have h := update_empty_before_not_suppressed evUpdNoBefore rfl (by decide) rfl
  exact ⟨h.1.trans (by decide), h.2⟩

end Binlogx
